import Mathlib

/-!
Shallow embedding of `keystone/identity/shadow_backends/sql.py`
(class `ShadowUsers`, the shadow-user persistence adapter).

Modelling conventions:
  * The SQL database is a `Store`: lists of rows for the `user`,
    `local_user`, `federated_user` and `nonlocal_user` tables, plus the
    uuid supply (`nextId`, standing in for `uuid.uuid4().hex`: an opaque
    fresh identifier) and the current clock (`now`, standing in for
    `datetime.datetime.utcnow()`).
  * Python dict values are `Val` (string / bool / opaque id as Nat); a
    Python dict is an association list `PyDict`.  For the one operation
    whose claims concern object identity and in-place mutation
    (`create_nonlocal_user`), dicts live in an explicit heap
    (`List PyDict`) addressed by index, so `copy.deepcopy` versus
    aliasing is observable.
  * SQL three-valued logic is modelled where it matters: `idEq` is the
    null-rejecting column equality used in joins and filters, and
    `sqlNe` is the null-rejecting `!=` used by
    `update_federated_user_display_name`.
  * Errors are the `Err` inductive; a raised Python exception is
    `Except.error`.  Inside `with sql.session_for_write()` an exception
    rolls the transaction back, so an erroring operation returns the
    store unchanged.
  * `keystone.identity.backends.sql_model`, `keystone.common.sql` and
    `oslo_config` are not part of this repository fragment; the pieces
    of them this component uses (`from_dict`, `filter_user`,
    `handle_conflicts`, `filter_limit_query`, the config flag) are
    modelled from the spec, each marked `Modelled from the spec:` in its
    doc comment.
-/

namespace Keystone

/-- Python dict values that flow through this component: strings,
booleans, and opaque generated identifiers (uuid hex strings, modelled
as naturals). -/
inductive Val where
  | vstr (s : String)
  | vbool (b : Bool)
  | vnat (n : Nat)
deriving DecidableEq, Repr

/-- A Python dict, as an association list from keys to values. -/
abbrev PyDict := List (String × Val)

/-- Dict lookup: `d[k]` / `k in d`. -/
def dget (d : PyDict) (k : String) : Option Val :=
  (d.find? (fun p => p.1 == k)).map (fun p => p.2)

/-- Dict key deletion: `del d[k]`. -/
def ddel (d : PyDict) (k : String) : PyDict :=
  d.filter (fun p => !(p.1 == k))

/-- Row of the `user` table (`sql_model.User`): id (primary key,
nullable in the model so that a dict without an id can be translated),
enabled, created_at, last_active_at. -/
structure User where
  id : Option Nat
  enabled : Option Bool
  created_at : Option Nat
  last_active_at : Option Nat
deriving DecidableEq, Repr

/-- Row of the `federated_user` table (`sql_model.FederatedUser`):
foreign key to `user` plus the composite key (idp_id, protocol_id,
unique_id) and the optional display_name. -/
structure FederatedUser where
  user_id : Option Nat
  idp_id : String
  protocol_id : String
  unique_id : String
  display_name : Option String
deriving DecidableEq, Repr

/-- Row of the `local_user` table (read via outer join only). -/
structure LocalUser where
  user_id : Option Nat
  name : String
deriving DecidableEq, Repr

/-- Row of the `nonlocal_user` table (`sql_model.NonLocalUser`): owning
user and the unique name. -/
structure NonLocalUser where
  user_id : Option Nat
  name : Val
deriving DecidableEq, Repr

/-- The database state plus the uuid supply and the clock. -/
structure Store where
  users : List User
  localUsers : List LocalUser
  federated : List FederatedUser
  nonlocal_users : List NonLocalUser
  nextId : Nat
  now : Nat
deriving DecidableEq, Repr

/-- Errors this component can raise.  `userNotFound` is
`exception.UserNotFound`; `multipleResultsFound` is SQLAlchemy's
`MultipleResultsFound` from `query.one()` (not caught by the component);
`conflict` is `exception.Conflict` produced by `sql.handle_conflicts`
with its `conflict_type` tag; `attributeErrorNone` is the Python
`AttributeError` from assigning an attribute on `None`;
`keyError` is a Python `KeyError` on dict subscription. -/
inductive Err where
  | userNotFound (user_id : Val)
  | multipleResultsFound
  | conflict (conflict_type : String)
  | attributeErrorNone
  | keyError (k : String)
deriving DecidableEq, Repr

/-- The view of a user row returned across the component boundary.

Modelled from the spec: the Representation Filter
(`identity_base.filter_user` applied to `user_ref.to_dict()`) strips
internal-only fields (for example password) from a User record before
it crosses the boundary; the public fields of `User` remain. -/
structure UserView where
  id : Option Nat
  enabled : Option Bool
  created_at : Option Nat
  last_active_at : Option Nat
deriving DecidableEq, Repr

/-- Modelled from the spec: the Representation Filter applied to a row. -/
def filter_user (u : User) : UserView :=
  { id := u.id, enabled := u.enabled, created_at := u.created_at,
    last_active_at := u.last_active_at }

/-- Modelled from the spec: `sql_model.User.from_dict` builds a row from
a dict, taking each model attribute from the dict when present (a value
of the wrong type for a column is not a case the component produces and
is translated to an absent value). -/
def User.from_dict (d : PyDict) : User :=
  { id := match dget d "id" with
      | some (Val.vnat n) => some n
      | _ => none,
    enabled := match dget d "enabled" with
      | some (Val.vbool b) => some b
      | _ => none,
    created_at := none,
    last_active_at := none }

/-- The attributes of a federated user carried by `federated_dict`. -/
structure FedDict where
  idp_id : String
  protocol_id : String
  unique_id : String
  display_name : Option String
deriving DecidableEq, Repr

/-- Modelled from the spec: `sql_model.FederatedUser.from_dict` builds a
row from the federated attributes; `user_id` is filled in when the row
is attached to a user. -/
def FederatedUser.from_dict (fd : FedDict) : FederatedUser :=
  { user_id := none, idp_id := fd.idp_id, protocol_id := fd.protocol_id,
    unique_id := fd.unique_id, display_name := fd.display_name }

/-- SQL column equality between two nullable id columns: NULL compares
unequal to everything, including NULL. -/
def idEq (a b : Option Nat) : Bool :=
  match a, b with
  | some x, some y => x == y
  | _, _ => false

/-- SQL `column != value` on a nullable string column: a NULL value
makes the comparison unknown, so the row is not selected. -/
def sqlNe (a : Option String) (b : String) : Bool :=
  match a with
  | some x => !(x == b)
  | none => false

/-- `uuid.uuid4().hex`: an opaque fresh identifier, modelled as drawing
the next value from the store's id supply. -/
def uuid4 (s : Store) : Nat × Store :=
  (s.nextId, { s with nextId := s.nextId + 1 })

/-- The composite-key equality used by the federated lookups:
`FederatedUser.idp_id == idp AND protocol_id == proto AND
unique_id == uid`. -/
def tripleEq (idp proto uid : String) (f : FederatedUser) : Bool :=
  f.idp_id == idp && f.protocol_id == proto && f.unique_id == uid

/-- Uniqueness-constraint check run by the database at flush time for an
insert of a user row together with a federated row: the composite key
(idp_id, protocol_id, unique_id) is unique, and the user primary key is
unique (NULLs never conflict, per SQL). -/
def fedInsertConflict (s : Store) (u : User) (f : FederatedUser) : Bool :=
  s.federated.any (tripleEq f.idp_id f.protocol_id f.unique_id)
    || s.users.any (fun w => idEq w.id u.id)

/-- `ShadowUsers.create_federated_user`: build
`user = {id: uuid4().hex, enabled: True}`, translate `federated_dict`
and `user` to rows, stamp `created_at`, attach the federated row, add
both in one write transaction.  A uniqueness violation at flush is
translated by `sql.handle_conflicts(conflict_type='federated_user')`
into `Conflict("federated_user")`. -/
def create_federated_user (fd : FedDict) (s : Store) :
    Except Err (Store × UserView) :=
  let newId := (uuid4 s).1
  let s1 := (uuid4 s).2
  let user : PyDict := [("id", Val.vnat newId), ("enabled", Val.vbool true)]
  let federated_ref := FederatedUser.from_dict fd
  let user_ref0 := User.from_dict user
  let user_ref := { user_ref0 with created_at := some s1.now }
  let fed_row := { federated_ref with user_id := user_ref.id }
  if fedInsertConflict s1 user_ref fed_row then
    Except.error (Err.conflict "federated_user")
  else
    Except.ok
      ({ s1 with users := s1.users ++ [user_ref],
                 federated := s1.federated ++ [fed_row] },
       filter_user user_ref)

/-- One filter clause of a hints object: a (name, value) pair (the
comparator is equality for every filter this component handles). -/
structure HintFilter where
  name : String
  value : Val
deriving DecidableEq, Repr

/-- A hints object: the ordered list of filter clauses.  Pagination
directives are not modelled (no claim concerns them). -/
structure Hints where
  filters : List HintFilter
deriving DecidableEq, Repr

/-- The `statements` list built by
`_update_query_with_federated_statements`: one equality predicate on the
matching FederatedUser column per federated filter clause (the three
`if`s of the source are independent, not chained). -/
def statementsOf (filters : List HintFilter) : List (FederatedUser → Bool) :=
  filters.flatMap (fun flt =>
    (if flt.name == "idp_id" then
      [fun f => Val.vstr f.idp_id == flt.value] else [])
    ++ (if flt.name == "protocol_id" then
      [fun f => Val.vstr f.protocol_id == flt.value] else [])
    ++ (if flt.name == "unique_id" then
      [fun f => Val.vstr f.unique_id == flt.value] else []))

/-- `ShadowUsers._update_query_with_federated_statements`: collect the
federated equality statements, strip the federated filters out of the
hints (the source rebinds `hints.filters` to a freshly built list on the
caller's hints object; the returned `Hints` is that observable state of
the caller's object), and AND the statements onto the query.  The query
is modelled extensionally as its row list. -/
def _update_query_with_federated_statements (hints : Hints)
    (rows : List (User × FederatedUser)) :
    (List (User × FederatedUser)) × Hints :=
  let statements := statementsOf hints.filters
  let hints2 : Hints :=
    { filters := hints.filters.filter (fun x =>
        !(x.name == "idp_id" || x.name == "protocol_id"
          || x.name == "unique_id")) }
  (rows.filter (fun r => statements.all (fun p => p r.2)), hints2)

/-- The User attribute named by a generic filter clause, if the model
has it. -/
def userAttr (u : User) (name : String) : Option Val :=
  if name == "id" then u.id.map Val.vnat
  else if name == "enabled" then u.enabled.map Val.vbool
  else none

/-- Modelled from the spec: the generic Query Hint Translator
(`sql.filter_limit_query`) applies every filter clause not already
consumed by the caller as an equality predicate on the corresponding
User attribute (a clause naming an attribute the User model does not
have never matches).  Pagination is not modelled. -/
def filter_limit_query (rows : List (User × FederatedUser))
    (hints : Hints) : List (User × FederatedUser) :=
  rows.filter (fun r =>
    hints.filters.all (fun flt => userAttr r.1 flt.name == some flt.value))

/-- The rows contributed by one user row under
`query(User).outerjoin(LocalUser)`: one copy per matching local row,
or a single copy when no local row matches (LEFT OUTER JOIN). -/
def localJoin (locals : List LocalUser) (u : User) : List User :=
  let ls := locals.filter (fun l => idEq u.id l.user_id)
  if ls.isEmpty then [u] else ls.map (fun _ => u)

/-- All user rows of `query(User).outerjoin(LocalUser)`, with outer-join
multiplicity. -/
def joinedUsers (s : Store) : List User :=
  s.users.flatMap (localJoin s.localUsers)

/-- `ShadowUsers.get_federated_users`: outer-join users with local
users, join against FederatedUser on `User.id == FederatedUser.user_id`,
apply the federated statements (stripping those filters from the hints),
hand the remaining hints to the generic translator, and return the
filtered views.  The second component is the caller's hints object as
left after the call. -/
def get_federated_users (hints : Hints) (s : Store) :
    List UserView × Hints :=
  let rows0 := (joinedUsers s).flatMap (fun u =>
    (s.federated.filter (fun f => idEq u.id f.user_id)).map (fun f => (u, f)))
  let p := _update_query_with_federated_statements hints rows0
  let rows2 := filter_limit_query p.1 p.2
  (rows2.map (fun r => filter_user r.1), p.2)

/-- The row list of the `_get_federated_user` query: users outer-joined
with local users, inner-joined with FederatedUser on
`User.id == FederatedUser.user_id`, filtered on the composite key. -/
def fedTripleRows (idp proto uid : String) (s : Store) :
    List (User × FederatedUser) :=
  (joinedUsers s).flatMap (fun u =>
    (s.federated.filter (fun f =>
      idEq u.id f.user_id && tripleEq idp proto uid f)).map (fun f => (u, f)))

/-- `ShadowUsers._get_federated_user`: `query.one()` on the
composite-key query.  Zero rows raise SQLAlchemy `NoResultFound`
(`sql.NotFound`), which the component catches and converts to
`UserNotFound(user_id=unique_id)`; more than one row raises
`MultipleResultsFound`, which the component does not catch. -/
def _get_federated_user (idp proto uid : String) (s : Store) :
    Except Err User :=
  match fedTripleRows idp proto uid s with
  | [] => Except.error (Err.userNotFound (Val.vstr uid))
  | [r] => Except.ok r.1
  | _ :: _ :: _ => Except.error Err.multipleResultsFound

/-- `ShadowUsers.get_federated_user`: the composite-key lookup,
materialised through the Representation Filter inside the read scope. -/
def get_federated_user (idp proto uid : String) (s : Store) :
    Except Err UserView :=
  (_get_federated_user idp proto uid s).map filter_user

/-- Modelled from the spec: the Global Configuration flag
`CONF.security_compliance.disable_user_account_days_inactive`
controlling whether inactivity tracking is active. -/
structure Config where
  disable_user_account_days_inactive : Bool
deriving DecidableEq, Repr

/-- Date precision for `datetime.datetime.utcnow().date()`: seconds
since the epoch truncated to days. -/
def dateOf (t : Nat) : Nat := t / 86400

deriving instance DecidableEq for Except

/-- Outcome of an operation run for its effect: the raised-or-ok result,
the store after the call (an exception inside the write scope rolls the
transaction back), and whether a write session was opened. -/
structure WriteOutcome where
  result : Except Err Unit
  store : Store
  openedWrite : Bool
deriving DecidableEq, Repr

/-- `query(User).get(user_id)`: primary-key lookup returning the row or
`None`. -/
def queryGetUser (s : Store) (user_id : Nat) : Option User :=
  s.users.find? (fun u => u.id == some user_id)

/-- Assign `last_active_at` on the one row object returned by
`query.get` (the first row with that primary key). -/
def setLastActive : List User → Nat → Nat → List User
  | [], _, _ => []
  | u :: rest, uid, d =>
    if u.id == some uid then { u with last_active_at := some d } :: rest
    else u :: setLastActive rest uid d

/-- `ShadowUsers.set_last_active_at`: nothing happens unless the config
flag is set.  When it is, a write session is opened, `query.get` fetches
the row, and `user_ref.last_active_at = utcnow().date()` is assigned.
When `query.get` returned `None` that assignment raises `AttributeError`
and the write transaction is rolled back. -/
def set_last_active_at (cfg : Config) (user_id : Nat) (s : Store) :
    WriteOutcome :=
  if cfg.disable_user_account_days_inactive then
    match queryGetUser s user_id with
    | none =>
      { result := Except.error Err.attributeErrorNone, store := s,
        openedWrite := true }
    | some _ =>
      { result := Except.ok (), openedWrite := true,
        store := { s with
          users := setLastActive s.users user_id (dateOf s.now) } }
  else
    { result := Except.ok (), store := s, openedWrite := false }

/-- The rows selected by `update_federated_user_display_name`: composite
key matches and the current display_name differs from the new value
under SQL `!=` (a NULL display_name is never selected). -/
def displayNameHit (idp proto uid dn : String) (f : FederatedUser) : Bool :=
  tripleEq idp proto uid f && sqlNe f.display_name dn

/-- `ShadowUsers.update_federated_user_display_name`: bulk
`query.update` of `display_name` on the selected rows, returning the
store and the number of rows affected.  The wrapping
`sql.handle_conflicts(conflict_type='federated_user')` can only fire on
a uniqueness violation, and `display_name` is part of no unique key, so
the call never raises. -/
def update_federated_user_display_name (idp proto uid dn : String)
    (s : Store) : Store × Nat :=
  let hit := displayNameHit idp proto uid dn
  ({ s with federated := s.federated.map (fun f =>
      if hit f then { f with display_name := some dn } else f) },
   (s.federated.filter hit).length)

/-- The heap-mutating prefix of `create_nonlocal_user`:
`new_user_dict = copy.deepcopy(user_dict)` allocates a fresh dict at the
end of the heap, then `name` and `password` are deleted from that copy
(each guarded by `if key in new_user_dict`).  Returns the heap after
those statements; the fresh dict sits at index `heap.length`. -/
def nonlocalHeapPhase (heap : List PyDict) (udRef : Nat) : List PyDict :=
  let newRef := heap.length
  let h1 := heap ++ [heap.getD udRef []]
  let h2 := if (dget (h1.getD newRef []) "name").isSome then
      h1.set newRef (ddel (h1.getD newRef []) "name")
    else h1
  if (dget (h2.getD newRef []) "password").isSome then
    h2.set newRef (ddel (h2.getD newRef []) "password")
  else h2

/-- Uniqueness-constraint check at flush time for an insert of a user
row together with a nonlocal_user row: `nonlocal_user.name` is unique,
and the user primary key is unique. -/
def nonlocalInsertConflict (s : Store) (u : User) (n : NonLocalUser) : Bool :=
  s.nonlocal_users.any (fun m => m.name == n.name)
    || s.users.any (fun w => idEq w.id u.id)

/-- `ShadowUsers.create_nonlocal_user`: deep-copy the caller's dict,
delete the local_user attributes `name`/`password` from the copy, build
`new_nonlocal_user_dict = {name: user_dict['name']}` from the original
dict (raising `KeyError` when absent), translate both dicts to rows,
stamp `created_at`, attach the nonlocal row, and add in one write
transaction.  A uniqueness violation at flush is translated by
`sql.handle_conflicts(conflict_type='nonlocal_user')` into
`Conflict("nonlocal_user")`.  The caller's dict lives in `heap` at
`udRef`; the returned heap is the heap after the call. -/
def create_nonlocal_user (heap : List PyDict) (udRef : Nat) (s : Store) :
    List PyDict × Except Err (Store × UserView) :=
  let h3 := nonlocalHeapPhase heap udRef
  match dget (h3.getD udRef []) "name" with
  | none => (h3, Except.error (Err.keyError "name"))
  | some nameVal =>
    let new_user_ref0 := User.from_dict (h3.getD heap.length [])
    let new_user_ref := { new_user_ref0 with created_at := some s.now }
    let new_nonlocal_user_ref : NonLocalUser :=
      { user_id := new_user_ref.id, name := nameVal }
    if nonlocalInsertConflict s new_user_ref new_nonlocal_user_ref then
      (h3, Except.error (Err.conflict "nonlocal_user"))
    else
      (h3, Except.ok
        ({ s with users := s.users ++ [new_user_ref],
                  nonlocal_users := s.nonlocal_users ++ [new_nonlocal_user_ref] },
         filter_user new_user_ref))

/-- A well-formed store: every user id and every local_user owner id was
drawn from the id supply, so the next generated id is fresh. -/
def StoreWF (s : Store) : Bool :=
  s.users.all (fun u => match u.id with
    | some n => n < s.nextId
    | none => true)
  && s.localUsers.all (fun l => match l.user_id with
    | some n => n < s.nextId
    | none => true)

/-- The enabled value `User.from_dict` extracts from a dict. -/
def enabledOf (d : PyDict) : Option Bool :=
  match dget d "enabled" with
  | some (Val.vbool b) => some b
  | _ => none

/-- The empty database with id supply and clock at zero. -/
def emptyStore : Store :=
  { users := [], localUsers := [], federated := [], nonlocal_users := [],
    nextId := 0, now := 0 }

/-- The value of the deep-copied dict after the `name`/`password`
deletions of `create_nonlocal_user` (the functional view of the heap
steps of `nonlocalHeapPhase`). -/
def strippedDict (d : PyDict) : PyDict :=
  let d1 := if (dget d "name").isSome then ddel d "name" else d
  if (dget d1 "password").isSome then ddel d1 "password" else d1

/-- Concrete user dict: `{"name": "alice", "enabled": False}`. -/
def aliceDisabledDict : PyDict :=
  [("name", Val.vstr "alice"), ("enabled", Val.vbool false)]

/-- Concrete user dict: `{"name": "bob"}`. -/
def bobDict : PyDict := [("name", Val.vstr "bob")]

/-- Concrete federated attributes used by witnesses. -/
def fdI : FedDict :=
  { idp_id := "i", protocol_id := "p", unique_id := "q", display_name := none }

/-- A store holding one user that owns two federated rows with the same
composite key (i, p, q1) — a violated uniqueness invariant — and no row
at all for other keys. -/
def dupTripleStore : Store :=
  { users := [{ id := some 0, enabled := some true, created_at := none,
                last_active_at := none }],
    localUsers := [],
    federated :=
      [{ user_id := some 0, idp_id := "i", protocol_id := "p",
         unique_id := "q1", display_name := none },
       { user_id := some 0, idp_id := "i", protocol_id := "p",
         unique_id := "q1", display_name := some "d" }],
    nonlocal_users := [], nextId := 1, now := 0 }

/-! Helper lemmas about the embedding. -/

theorem mem_localJoin {locals : List LocalUser} {a u : User} :
    u ∈ localJoin locals a ↔ u = a := by
  simp only [localJoin]
  by_cases h : (locals.filter (fun l => idEq a.id l.user_id)).isEmpty = true
  · simp [h]
  · simp only [h, if_false, Bool.false_eq_true, List.mem_map]
    constructor
    · rintro ⟨x, hx, rfl⟩
      rfl
    · rintro rfl
      have h2 : ∃ x ∈ locals, idEq u.id x.user_id = true := by
        simpa [List.isEmpty_iff, List.filter_eq_nil_iff] using h
      rcases h2 with ⟨x, hxl, hxp⟩
      exact ⟨x, List.mem_filter.mpr ⟨hxl, hxp⟩, rfl⟩

theorem mem_joinedUsers {s : Store} {u : User} :
    u ∈ joinedUsers s ↔ u ∈ s.users := by
  simp [joinedUsers, List.mem_flatMap, mem_localJoin]

theorem displayNameHit_after (idp proto uid dn : String) (f : FederatedUser) :
    displayNameHit idp proto uid dn
      (if displayNameHit idp proto uid dn f then
        { f with display_name := some dn } else f) = false := by
  by_cases h : displayNameHit idp proto uid dn f = true
  · rw [if_pos h]
    simp [displayNameHit, sqlNe]
  · rw [if_neg h]
    simpa using h

/-- C9: when the inactivity policy flag is disabled, `set_last_active_at`
raises nothing, opens no write transaction, and leaves every field of
the store unchanged. -/
theorem C9_set_last_active_at_disabled_noop (user_id : Nat) (s : Store) :
    set_last_active_at { disable_user_account_days_inactive := false } user_id s
    = { result := Except.ok (), store := s, openedWrite := false } := rfl

/-- C1 counterexample: with the inactivity flag enabled and a user_id
absent from the store, `set_last_active_at` is not a silent no-op: the
attribute assignment on the `None` returned by `query.get` raises. -/
theorem C1_counterexample_missing_user_raises :
    (set_last_active_at { disable_user_account_days_inactive := true } 7
      emptyStore).result
    = Except.error Err.attributeErrorNone := by decide

/-- C1 amended: with the inactivity flag enabled and a user_id absent
from the store, `set_last_active_at` raises an error (an attribute
assignment on a missing record) inside an opened write transaction,
which rolls back, leaving the store unchanged. -/
theorem C1_amended_missing_user_raises (user_id : Nat) (s : Store)
    (h : queryGetUser s user_id = none) :
    set_last_active_at { disable_user_account_days_inactive := true } user_id s
    = { result := Except.error Err.attributeErrorNone, store := s,
        openedWrite := true } := by
  simp [set_last_active_at, h]

theorem C1_amended_witness :
    set_last_active_at { disable_user_account_days_inactive := true } 7 emptyStore
    = { result := Except.error Err.attributeErrorNone, store := emptyStore,
        openedWrite := true } :=
  C1_amended_missing_user_raises 7 emptyStore rfl

/-- C6: calling `update_federated_user_display_name` twice in a row with
the same arguments leaves the store after the second call identical to
the store after the first call, and the second call affects zero rows
(the operation raises nothing: the only failure path of its
conflict-handler wrapper is a uniqueness violation, and `display_name`
is part of no unique key). -/
theorem C6_update_display_name_idempotent (idp proto uid dn : String) (s : Store) :
    update_federated_user_display_name idp proto uid dn
      (update_federated_user_display_name idp proto uid dn s).1
    = ((update_federated_user_display_name idp proto uid dn s).1, 0) := by
  unfold update_federated_user_display_name
  have hnil : ∀ l : List FederatedUser,
      (l.map (fun f => if displayNameHit idp proto uid dn f then
        { f with display_name := some dn } else f)).filter
        (displayNameHit idp proto uid dn) = [] := by
    intro l
    apply List.filter_eq_nil_iff.mpr
    intro x hx
    rcases List.mem_map.mp hx with ⟨a, _, rfl⟩
    simp [displayNameHit_after]
  have hmap : ∀ l : List FederatedUser,
      ((l.map (fun f => if displayNameHit idp proto uid dn f then
        { f with display_name := some dn } else f)).map
        (fun f => if displayNameHit idp proto uid dn f then
          { f with display_name := some dn } else f))
      = l.map (fun f => if displayNameHit idp proto uid dn f then
          { f with display_name := some dn } else f) := by
    intro l
    rw [List.map_map]
    apply List.map_congr_left
    intro a _
    show (if displayNameHit idp proto uid dn
        (if displayNameHit idp proto uid dn a then
          { a with display_name := some dn } else a) then _ else _) = _
    rw [displayNameHit_after]
    simp
  simp only [Prod.mk.injEq]
  constructor
  · simp only [hmap]
  · simp only [hnil, List.length_nil]

/-- C8 counterexample: the hints object the caller passed to
`get_federated_users` is observably different after the call whenever it
contained a federated filter: the federated filters have been removed
from it. -/
theorem C8_counterexample_hints_mutated :
    (get_federated_users
      { filters := [{ name := "idp_id", value := Val.vstr "x" }] }
      emptyStore).2
    ≠ { filters := [{ name := "idp_id", value := Val.vstr "x" }] } := by
  decide

/-- C8 amended: the composite-key filters are extracted and removed by
constructing a new filter list (the remaining clauses keep their order);
that new list is bound to the caller's hints object, so after the call
the caller's hints no longer contain the idp_id/protocol_id/unique_id
clauses — the hints object is observably mutated exactly when it
contained such a clause. -/
theorem C8_amended_hints_filters_stripped (hints : Hints) (s : Store) :
    (get_federated_users hints s).2.filters
    = hints.filters.filter (fun x =>
        !(x.name == "idp_id" || x.name == "protocol_id"
          || x.name == "unique_id")) := rfl

theorem dget_ddel_ne (d : PyDict) (k k2 : String) (h : ¬(k2 = k)) :
    dget (ddel d k) k2 = dget d k2 := by
  induction d with
  | nil => rfl
  | cons p tl ih =>
    by_cases hp : (p.1 == k) = true
    · have hp2 : (p.1 == k2) = false := by
        have : p.1 = k := by simpa using hp
        simp [this]
        intro hk
        exact h hk.symm
      simp only [ddel, List.filter_cons, hp, Bool.not_true, if_false,
        Bool.false_eq_true] at *
      rw [ih]
      simp [dget, List.find?_cons, hp2]
    · have hpb : (p.1 == k) = false := by simpa using hp
      simp only [ddel, List.filter_cons, hpb, Bool.not_false, if_true]
      by_cases hq : (p.1 == k2) = true
      · simp [dget, List.find?_cons, hq]
      · have hqb : (p.1 == k2) = false := by simpa using hq
        simp only [dget, List.find?_cons, hqb] at *
        exact ih

theorem set_append_last {α : Type} (l : List α) (x a : α) :
    (l ++ [x]).set l.length a = l ++ [a] := by
  rw [List.set_append_right _ _ (Nat.le_refl _)]
  simp

theorem getD_append_last {α : Type} (l : List α) (x d : α) :
    (l ++ [x]).getD l.length d = x := by
  simp [List.getD_eq_getElem?_getD]

theorem nonlocalHeapPhase_spec (heap : List PyDict) (udRef : Nat) :
    nonlocalHeapPhase heap udRef
    = heap ++ [strippedDict (heap.getD udRef [])] := by
  simp only [nonlocalHeapPhase, strippedDict]
  rw [getD_append_last]
  by_cases hn : (dget (heap.getD udRef []) "name").isSome = true
  · rw [if_pos hn, if_pos hn, set_append_last, getD_append_last]
    by_cases hp : (dget (ddel (heap.getD udRef []) "name") "password").isSome = true
    · rw [if_pos hp, if_pos hp, set_append_last]
    · rw [if_neg hp, if_neg hp]
  · rw [if_neg hn, if_neg hn, getD_append_last]
    by_cases hp : (dget (heap.getD udRef []) "password").isSome = true
    · rw [if_pos hp, if_pos hp, set_append_last]
    · rw [if_neg hp, if_neg hp]

theorem create_nonlocal_user_heap (heap : List PyDict) (udRef : Nat) (s : Store) :
    (create_nonlocal_user heap udRef s).1 = nonlocalHeapPhase heap udRef := by
  simp only [create_nonlocal_user]
  split
  · rfl
  · split
    · rfl
    · rfl

/-- C10: `create_nonlocal_user` leaves the caller's dict unchanged: the
`name`/`password` deletions hit only the deep copy, so the heap cell the
caller's reference points at holds the same dict after the call. -/
theorem C10_create_nonlocal_user_preserves_caller_dict (heap : List PyDict)
    (udRef : Nat) (s : Store) (hr : udRef < heap.length)
    (hname : (dget (heap.getD udRef []) "name").isSome = true) :
    (create_nonlocal_user heap udRef s).1[udRef]? = heap[udRef]? := by
  rw [create_nonlocal_user_heap, nonlocalHeapPhase_spec]
  rw [List.getElem?_append, if_pos hr]

theorem C10_witness :
    (create_nonlocal_user [bobDict] 0 emptyStore).1[0]? = [bobDict][0]? :=
  C10_create_nonlocal_user_preserves_caller_dict [bobDict] 0 emptyStore
    (by decide) (by decide)

/-- C2 counterexample: `create_nonlocal_user` accepts
`{"name": "alice", "enabled": False}` and the User it creates has
enabled = false, not true: the operation does not force enabled. -/
theorem C2_counterexample_enabled_not_forced :
    ((create_nonlocal_user [aliceDisabledDict] 0 emptyStore).2.map
      (fun p => p.2.enabled)) = Except.ok (some false) := by decide

theorem enabledOf_strippedDict (d : PyDict) :
    enabledOf (strippedDict d) = enabledOf d := by
  have e1 : dget (ddel d "name") "enabled" = dget d "enabled" :=
    dget_ddel_ne d "name" "enabled" (by decide)
  have e2 : ∀ dd : PyDict, dget (ddel dd "password") "enabled" = dget dd "enabled" :=
    fun dd => dget_ddel_ne dd "password" "enabled" (by decide)
  simp only [strippedDict]
  by_cases hn : (dget d "name").isSome = true
  · rw [if_pos hn]
    by_cases hp : (dget (ddel d "name") "password").isSome = true
    · rw [if_pos hp]
      simp [enabledOf, e1, e2]
    · rw [if_neg hp]
      simp [enabledOf, e1]
  · rw [if_neg hn]
    by_cases hp : (dget d "password").isSome = true
    · rw [if_pos hp]
      simp [enabledOf, e2]
    · rw [if_neg hp]

/-- C2 amended: every accepted `create_nonlocal_user` call creates the
User with created_at set to the creation time, but enabled is taken from
the caller's attributes (the `enabled` entry of user_dict, unset when
absent) — it is not forced to true as it is in `create_federated_user`. -/
theorem C2_amended_created_at_now_enabled_from_attrs (heap : List PyDict)
    (udRef : Nat) (s : Store) (h1 : List PyDict) (s1 : Store) (v : UserView)
    (h : create_nonlocal_user heap udRef s = (h1, Except.ok (s1, v))) :
    v.created_at = some s.now ∧ v.enabled = enabledOf (heap.getD udRef []) := by
  simp only [create_nonlocal_user] at h
  split at h
  · simp [Prod.ext_iff] at h
  · split at h
    · simp [Prod.ext_iff] at h
    · simp only [Prod.mk.injEq, Except.ok.injEq] at h
      obtain ⟨hheap, hstore, hview⟩ := h
      subst hview
      constructor
      · rfl
      · show (User.from_dict
          ((nonlocalHeapPhase heap udRef).getD heap.length [])).enabled
          = enabledOf (heap.getD udRef [])
        have he : ∀ dd : PyDict, (User.from_dict dd).enabled = enabledOf dd :=
          fun dd => rfl
        rw [he, nonlocalHeapPhase_spec, getD_append_last]
        exact enabledOf_strippedDict _

theorem C2_amended_witness :
    ({ id := none, enabled := none, created_at := some 0,
       last_active_at := none } : UserView).created_at = some emptyStore.now
    ∧ ({ id := none, enabled := none, created_at := some 0,
         last_active_at := none } : UserView).enabled
      = enabledOf ([bobDict].getD 0 []) :=
  C2_amended_created_at_now_enabled_from_attrs [bobDict] 0 emptyStore
    [bobDict, []]
    { users := [{ id := none, enabled := none, created_at := some 0,
                  last_active_at := none }],
      localUsers := [], federated := [],
      nonlocal_users := [{ user_id := none, name := Val.vstr "bob" }],
      nextId := 0, now := 0 }
    { id := none, enabled := none, created_at := some 0,
      last_active_at := none }
    (by decide)

/-- C4: `get_federated_user` raises `UserNotFound(unique_id)` when zero
rows match the composite key; when more than one row matches it raises
`MultipleResultsFound`, an error distinct from `UserNotFound` that the
component neither catches nor converts. -/
theorem C4_get_federated_user_zero_or_many (s : Store) (idp proto uid : String) :
    (fedTripleRows idp proto uid s = [] →
      get_federated_user idp proto uid s
        = Except.error (Err.userNotFound (Val.vstr uid)))
    ∧ (2 ≤ (fedTripleRows idp proto uid s).length →
      get_federated_user idp proto uid s = Except.error Err.multipleResultsFound)
    ∧ (∀ v, Err.multipleResultsFound ≠ Err.userNotFound v) := by
  refine ⟨?_, ?_, ?_⟩
  · intro h
    simp [get_federated_user, _get_federated_user, h, Except.map]
  · intro h
    rcases hrows : fedTripleRows idp proto uid s with _ | ⟨r1, t1⟩
    · rw [hrows] at h
      simp at h
    · rcases t1 with _ | ⟨r2, t2⟩
      · rw [hrows] at h
        simp at h
      · simp [get_federated_user, _get_federated_user, hrows, Except.map]
  · intro v hc
    exact Err.noConfusion hc

theorem C4_witness :
    get_federated_user "i" "p" "zz" dupTripleStore
      = Except.error (Err.userNotFound (Val.vstr "zz"))
    ∧ get_federated_user "i" "p" "q1" dupTripleStore
      = Except.error Err.multipleResultsFound :=
  ⟨(C4_get_federated_user_zero_or_many dupTripleStore "i" "p" "zz").1 (by decide),
   (C4_get_federated_user_zero_or_many dupTripleStore "i" "p" "q1").2.1 (by decide)⟩

/-- C5: a create whose unique key already exists raises Conflict tagged
with the record category: a second `create_federated_user` with an
identical (idp_id, protocol_id, unique_id) triple raises
Conflict("federated_user"), and a second `create_nonlocal_user` with a
duplicate name raises Conflict("nonlocal_user"). -/
theorem C5_duplicate_create_conflicts (s : Store) (fd : FedDict)
    (heap : List PyDict) (udRef : Nat) :
    (∀ s1 v, create_federated_user fd s = Except.ok (s1, v) →
      create_federated_user fd s1 = Except.error (Err.conflict "federated_user"))
    ∧ (∀ h1 s1 v, create_nonlocal_user heap udRef s = (h1, Except.ok (s1, v)) →
      (create_nonlocal_user heap udRef s1).2
        = Except.error (Err.conflict "nonlocal_user")) := by
  constructor
  · intro s1 v h
    simp only [create_federated_user] at h
    split at h
    · simp at h
    · simp only [Except.ok.injEq, Prod.mk.injEq] at h
      obtain ⟨hs1, -⟩ := h
      subst hs1
      simp only [create_federated_user]
      split
      · rfl
      · rename_i hg
        exfalso
        apply hg
        simp [fedInsertConflict, uuid4, List.any_append, tripleEq,
          FederatedUser.from_dict]
  · intro h1 s1 v h
    simp only [create_nonlocal_user] at h ⊢
    split at h
    · simp [Prod.ext_iff] at h
    · rename_i nameVal heq
      split at h
      · simp [Prod.ext_iff] at h
      · simp only [Prod.mk.injEq, Except.ok.injEq] at h
        obtain ⟨-, hs1, -⟩ := h
        subst hs1
        split
        · rfl
        · rename_i hg
          exfalso
          apply hg
          simp [nonlocalInsertConflict, List.any_append]

theorem C5_witness :
    create_federated_user fdI
      { users := [{ id := some 0, enabled := some true, created_at := some 0,
                    last_active_at := none }],
        localUsers := [],
        federated := [{ user_id := some 0, idp_id := "i", protocol_id := "p",
                        unique_id := "q", display_name := none }],
        nonlocal_users := [], nextId := 1, now := 0 }
      = Except.error (Err.conflict "federated_user")
    ∧ (create_nonlocal_user [bobDict] 0
        { users := [{ id := none, enabled := none, created_at := some 0,
                      last_active_at := none }],
          localUsers := [], federated := [],
          nonlocal_users := [{ user_id := none, name := Val.vstr "bob" }],
          nextId := 0, now := 0 }).2
      = Except.error (Err.conflict "nonlocal_user") :=
  ⟨(C5_duplicate_create_conflicts emptyStore fdI [bobDict] 0).1
      { users := [{ id := some 0, enabled := some true, created_at := some 0,
                    last_active_at := none }],
        localUsers := [],
        federated := [{ user_id := some 0, idp_id := "i", protocol_id := "p",
                        unique_id := "q", display_name := none }],
        nonlocal_users := [], nextId := 1, now := 0 }
      { id := some 0, enabled := some true, created_at := some 0,
        last_active_at := none }
      (by decide),
   (C5_duplicate_create_conflicts emptyStore fdI [bobDict] 0).2
      [bobDict, []]
      { users := [{ id := none, enabled := none, created_at := some 0,
                    last_active_at := none }],
        localUsers := [], federated := [],
        nonlocal_users := [{ user_id := none, name := Val.vstr "bob" }],
        nextId := 0, now := 0 }
      { id := none, enabled := none, created_at := some 0,
        last_active_at := none }
      (by decide)⟩

theorem mem_rows0 {s : Store} {r : User × FederatedUser} :
    r ∈ (joinedUsers s).flatMap (fun u =>
      (s.federated.filter (fun f => idEq u.id f.user_id)).map (fun f => (u, f)))
    ↔ r.1 ∈ s.users ∧ r.2 ∈ s.federated ∧ idEq r.1.id r.2.user_id = true := by
  simp only [List.mem_flatMap, List.mem_map, List.mem_filter, mem_joinedUsers]
  constructor
  · rintro ⟨u, hu, f, ⟨hf, hid⟩, rfl⟩
    exact ⟨hu, hf, hid⟩
  · rintro ⟨h1, h2, h3⟩
    exact ⟨r.1, h1, r.2, ⟨h2, h3⟩, rfl⟩

theorem C3_get_federated_users_idp_filter (s : Store) (X : String) (hints : Hints)
    (hh : hints.filters = [{ name := "idp_id", value := Val.vstr X }]) :
    (∀ v, v ∈ (get_federated_users hints s).1 ↔
      ∃ u, u ∈ s.users
        ∧ (∃ f, f ∈ s.federated ∧ idEq u.id f.user_id = true ∧ f.idp_id = X)
        ∧ v = filter_user u)
    ∧ (get_federated_users hints s).2.filters = [] := by
  obtain ⟨filters⟩ := hints
  simp only [Hints.mk.injEq] at hh
  subst hh
  have hres : (get_federated_users
      { filters := [{ name := "idp_id", value := Val.vstr X }] } s).1
    = (((joinedUsers s).flatMap (fun u =>
        (s.federated.filter (fun f => idEq u.id f.user_id)).map
          (fun f => (u, f)))).filter
        (fun r => Val.vstr r.2.idp_id == Val.vstr X)).map
        (fun r => filter_user r.1) := by
    simp [get_federated_users, _update_query_with_federated_statements,
      filter_limit_query, statementsOf, List.filter_true, List.all_cons,
      List.all_nil, Bool.and_true]
  constructor
  · intro v
    rw [hres]
    simp only [List.mem_map, List.mem_filter]
    constructor
    · rintro ⟨r, ⟨hr0, hpred⟩, rfl⟩
      obtain ⟨h1, h2, h3⟩ := mem_rows0.mp hr0
      refine ⟨r.1, h1, ⟨r.2, h2, h3, ?_⟩, rfl⟩
      simpa using hpred
    · rintro ⟨u, hu, ⟨f, hf, hid, hidp⟩, rfl⟩
      refine ⟨(u, f), ⟨mem_rows0.mpr ⟨hu, hf, hid⟩, by simp [hidp]⟩, rfl⟩
  · rfl

theorem C3_witness :
    (∀ v, v ∈ (get_federated_users
        { filters := [{ name := "idp_id", value := Val.vstr "i" }] }
        dupTripleStore).1 ↔
      ∃ u, u ∈ dupTripleStore.users
        ∧ (∃ f, f ∈ dupTripleStore.federated ∧ idEq u.id f.user_id = true
            ∧ f.idp_id = "i")
        ∧ v = filter_user u)
    ∧ (get_federated_users
        { filters := [{ name := "idp_id", value := Val.vstr "i" }] }
        dupTripleStore).2.filters = [] :=
  C3_get_federated_users_idp_filter dupTripleStore "i" _ rfl

theorem flatMap_eq_nil_of {α β : Type} {l : List α} {g : α → List β}
    (h : ∀ x ∈ l, g x = []) : l.flatMap g = [] := by
  simp only [List.flatMap_eq_nil_iff]
  exact h

theorem storeWF_users {s : Store} (hwf : StoreWF s = true) :
    ∀ u ∈ s.users, idEq u.id (some s.nextId) = false := by
  intro u hu
  have h1 := (Bool.and_eq_true_iff.mp hwf).1
  have h2 := List.all_eq_true.mp h1 u hu
  cases hu2 : u.id with
  | none => simp [idEq]
  | some n =>
    rw [hu2] at h2
    simp only [decide_eq_true_eq] at h2
    simp [idEq, Nat.ne_of_lt h2]

theorem storeWF_users_ne {s : Store} (hwf : StoreWF s = true) :
    ∀ u ∈ s.users, u.id ≠ some s.nextId := by
  intro u hu heq
  have := storeWF_users hwf u hu
  rw [heq] at this
  simp [idEq] at this

theorem storeWF_locals {s : Store} (hwf : StoreWF s = true) :
    ∀ l ∈ s.localUsers, idEq (some s.nextId) l.user_id = false := by
  intro l hl
  have h1 := (Bool.and_eq_true_iff.mp hwf).2
  have h2 := List.all_eq_true.mp h1 l hl
  cases hl2 : l.user_id with
  | none => simp [idEq]
  | some n =>
    rw [hl2] at h2
    simp only [decide_eq_true_eq] at h2
    simp [idEq]
    exact (Nat.ne_of_lt h2).symm

theorem fedTripleRows_fresh_append (s : Store) (fd : FedDict)
    (hfresh : ∀ f ∈ s.federated,
      tripleEq fd.idp_id fd.protocol_id fd.unique_id f = false)
    (hidU : ∀ u ∈ s.users, idEq u.id (some s.nextId) = false)
    (hidL : ∀ l ∈ s.localUsers, idEq (some s.nextId) l.user_id = false)
    (nu : User) (hnu : nu.id = some s.nextId)
    (nf : FederatedUser) (hnf : nf.user_id = some s.nextId)
    (hnf2 : tripleEq fd.idp_id fd.protocol_id fd.unique_id nf = true) :
    fedTripleRows fd.idp_id fd.protocol_id fd.unique_id
      { s with nextId := s.nextId + 1, users := s.users ++ [nu],
               federated := s.federated ++ [nf] }
    = [(nu, nf)] := by
  simp only [fedTripleRows, joinedUsers]
  rw [List.flatMap_append, List.flatMap_append]
  have hA : (s.users.flatMap (localJoin s.localUsers)).flatMap (fun u =>
      ((s.federated ++ [nf]).filter (fun f =>
        idEq u.id f.user_id
          && tripleEq fd.idp_id fd.protocol_id fd.unique_id f)).map
        (fun f => (u, f))) = [] := by
    apply flatMap_eq_nil_of
    intro u hu
    have humem : u ∈ s.users := by
      rcases List.mem_flatMap.mp hu with ⟨a, ha, hua⟩
      rw [mem_localJoin.mp hua]
      exact ha
    have hfilter : (s.federated ++ [nf]).filter (fun f =>
        idEq u.id f.user_id
          && tripleEq fd.idp_id fd.protocol_id fd.unique_id f) = [] := by
      apply List.filter_eq_nil_iff.mpr
      intro f hf
      rcases List.mem_append.mp hf with hf1 | hf2
      · simp [hfresh f hf1]
      · rcases List.mem_singleton.mp hf2 with rfl
        simp [hnf, hidU u humem]
    rw [hfilter]
    rfl
  have hB : localJoin s.localUsers nu = [nu] := by
    simp only [localJoin, hnu]
    have : s.localUsers.filter (fun l => idEq (some s.nextId) l.user_id) = [] := by
      apply List.filter_eq_nil_iff.mpr
      intro l hl
      simp [hidL l hl]
    rw [this]
    rfl
  have hgnu : ((s.federated ++ [nf]).filter (fun f =>
      idEq nu.id f.user_id
        && tripleEq fd.idp_id fd.protocol_id fd.unique_id f)).map
      (fun f => (nu, f)) = [(nu, nf)] := by
    rw [List.filter_append]
    have h1 : s.federated.filter (fun f =>
        idEq nu.id f.user_id
          && tripleEq fd.idp_id fd.protocol_id fd.unique_id f) = [] := by
      apply List.filter_eq_nil_iff.mpr
      intro f hf
      simp [hfresh f hf]
    have h2 : ([nf] : List FederatedUser).filter (fun f =>
        idEq nu.id f.user_id
          && tripleEq fd.idp_id fd.protocol_id fd.unique_id f) = [nf] := by
      simp [List.filter, hnu, hnf, hnf2, idEq]
    rw [h1, h2]
    rfl
  rw [hA]
  simp only [List.flatMap_cons, List.flatMap_nil, List.append_nil,
    List.nil_append]
  rw [hB]
  simp only [List.flatMap_cons, List.flatMap_nil, List.append_nil]
  exact hgnu

/-- C7: creating a federated user with a fresh composite key in a
well-formed store succeeds with a User id no existing user has, the
created user has enabled=true and created_at=now, and a subsequent
`get_federated_user` with the same triple returns that same view with
enabled=true. -/
theorem C7_create_federated_user_roundtrip (fd : FedDict) (s : Store)
    (hwf : StoreWF s = true)
    (hfresh : ∀ f ∈ s.federated,
      tripleEq fd.idp_id fd.protocol_id fd.unique_id f = false) :
    ∃ s2 v, create_federated_user fd s = Except.ok (s2, v)
      ∧ v.id = some s.nextId
      ∧ (∀ u ∈ s.users, u.id ≠ some s.nextId)
      ∧ v.enabled = some true
      ∧ v.created_at = some s.now
      ∧ get_federated_user fd.idp_id fd.protocol_id fd.unique_id s2
          = Except.ok v := by
  have hidU := storeWF_users hwf
  have hidL := storeWF_locals hwf
  have hany1 : s.federated.any
      (tripleEq fd.idp_id fd.protocol_id fd.unique_id) = false := by
    rw [List.any_eq_false]
    intro f hf
    simp [hfresh f hf]
  have hany2 : s.users.any (fun w => idEq w.id (some s.nextId)) = false := by
    rw [List.any_eq_false]
    intro u hu
    simp [hidU u hu]
  have hcreate :
      create_federated_user fd s
      = Except.ok
          ({ s with nextId := s.nextId + 1,
                    users := s.users ++
                      [{ id := some s.nextId, enabled := some true,
                         created_at := some s.now, last_active_at := none }],
                    federated := s.federated ++
                      [{ user_id := some s.nextId, idp_id := fd.idp_id,
                         protocol_id := fd.protocol_id,
                         unique_id := fd.unique_id,
                         display_name := fd.display_name }] },
           { id := some s.nextId, enabled := some true,
             created_at := some s.now, last_active_at := none }) := by
    simp only [create_federated_user, uuid4]
    split
    · rename_i hg
      exfalso
      simp [fedInsertConflict, FederatedUser.from_dict, User.from_dict, dget,
        hany1, hany2] at hg
    · rfl
  have hrows := fedTripleRows_fresh_append s fd hfresh hidU hidL
    { id := some s.nextId, enabled := some true,
      created_at := some s.now, last_active_at := none } rfl
    { user_id := some s.nextId, idp_id := fd.idp_id,
      protocol_id := fd.protocol_id, unique_id := fd.unique_id,
      display_name := fd.display_name } rfl (by simp [tripleEq])
  refine ⟨_, _, hcreate, rfl, storeWF_users_ne hwf, rfl, rfl, ?_⟩
  simp [get_federated_user, _get_federated_user, hrows, Except.map,
    filter_user]

theorem C7_witness :
    ∃ s2 v, create_federated_user fdI emptyStore = Except.ok (s2, v)
      ∧ v.id = some emptyStore.nextId
      ∧ (∀ u ∈ emptyStore.users, u.id ≠ some emptyStore.nextId)
      ∧ v.enabled = some true
      ∧ v.created_at = some emptyStore.now
      ∧ get_federated_user fdI.idp_id fdI.protocol_id fdI.unique_id s2
          = Except.ok v :=
  C7_create_federated_user_roundtrip fdI emptyStore (by decide)
    (by intro f hf; simp [emptyStore] at hf)

end Keystone
